import Mathlib

/-!
Verification of the FrameForge audio-capture core
(`src/tools/frameforge/frameforge-audio.{h,cpp}`): a shallow embedding of the
configuration object, the derived sample thresholds, the VAD (voice-activity
detection) state machine of `AudioCapture::handle_audio_data`, the shared
audio buffer (`get_audio_buffer` / buffer append), the RMS classifier
(`calculate_rms` / `is_speech`), and the `stop` lifecycle step.
Float samples are modelled as real numbers; millisecond durations and the
sample rate (multiplied in float arithmetic in the C++ constructor before a
truncating cast to `size_t`) are modelled as rationals with `Nat.floor`.
-/

namespace Frameforge

/-- Configuration value object, from `AudioConfig` in `frameforge-audio.h`. -/
structure AudioConfig where
  sample_rate : ℚ
  channels : ℕ
  frames_per_buffer : ℕ
  vad_threshold : ℝ
  min_speech_duration_ms : ℚ
  silence_duration_ms : ℚ

/-- Derived in the `AudioCapture` constructor:
`(min_speech_duration_ms / 1000) * sample_rate`, truncated to a sample count. -/
def min_speech_samples (c : AudioConfig) : ℕ :=
  ⌊c.min_speech_duration_ms / 1000 * c.sample_rate⌋₊

/-- Derived in the `AudioCapture` constructor:
`(silence_duration_ms / 1000) * sample_rate`, truncated to a sample count. -/
def silence_samples_threshold (c : AudioConfig) : ℕ :=
  ⌊c.silence_duration_ms / 1000 * c.sample_rate⌋₊

/-- The four VAD fields guarded by `vad_mutex_`. -/
structure VadState where
  ready_to_process : Bool
  has_speech : Bool
  speech_sample_count : ℕ
  silence_sample_count : ℕ

/-- The member initialisers of the `AudioCapture` constructor. -/
def init_vad_state : VadState :=
  { ready_to_process := false, has_speech := false
    speech_sample_count := 0, silence_sample_count := 0 }

/-- `AudioCapture::reset_vad_state`. -/
def reset_vad_state (_st : VadState) : VadState := init_vad_state

/-- The locked VAD-update block of `AudioCapture::handle_audio_data`
(lines 212–241), on one frame batch of `n` samples classified `isSp`. -/
def vad_step (minSp silTh : ℕ) (st : VadState) (isSp : Bool) (n : ℕ) : VadState :=
  match isSp with
  | true =>
    let sc := st.speech_sample_count + n
    { ready_to_process := st.ready_to_process
      has_speech := if minSp ≤ sc then true else st.has_speech
      speech_sample_count := sc
      silence_sample_count := 0 }
  | false =>
    match st.has_speech with
    | true =>
      let si := st.silence_sample_count + n
      { ready_to_process := if silTh ≤ si then true else st.ready_to_process
        has_speech := st.has_speech
        speech_sample_count := st.speech_sample_count
        silence_sample_count := si }
    | false =>
      { st with speech_sample_count := 0, silence_sample_count := 0 }

/-- Running the VAD update over a sequence of classified frame batches. -/
def vad_run (minSp silTh : ℕ) (st : VadState) (bs : List (Bool × ℕ)) : VadState :=
  bs.foldl (fun s b => vad_step minSp silTh s b.1 b.2) st

theorem vad_run_nil (minSp silTh : ℕ) (st : VadState) :
    vad_run minSp silTh st [] = st := rfl

theorem vad_run_cons (minSp silTh : ℕ) (st : VadState) (b : Bool × ℕ)
    (bs : List (Bool × ℕ)) :
    vad_run minSp silTh st (b :: bs) =
      vad_run minSp silTh (vad_step minSp silTh st b.1 b.2) bs := rfl

/-- A single VAD update never clears `ready_to_process_`. -/
theorem vad_step_ready_mono (minSp silTh : ℕ) (st : VadState) (isSp : Bool) (n : ℕ)
    (h : st.ready_to_process = true) :
    (vad_step minSp silTh st isSp n).ready_to_process = true := by
  cases isSp with
  | true => simpa [vad_step] using h
  | false =>
    cases hsp : st.has_speech with
    | true =>
      simp only [vad_step, hsp]
      split <;> simp [h]
    | false => simpa [vad_step, hsp] using h

/-- Running any batch sequence never clears `ready_to_process_`. -/
theorem vad_run_ready_mono (minSp silTh : ℕ) :
    ∀ (bs : List (Bool × ℕ)) (st : VadState), st.ready_to_process = true →
      (vad_run minSp silTh st bs).ready_to_process = true := by
  intro bs
  induction bs with
  | nil => intro st h; simpa [vad_run_nil] using h
  | cons b rest ih =>
    intro st h
    rw [vad_run_cons]
    exact ih _ (vad_step_ready_mono minSp silTh st b.1 b.2 h)

/-- A single VAD update never clears `has_speech_`. -/
theorem vad_step_speech_mono (minSp silTh : ℕ) (st : VadState) (isSp : Bool) (n : ℕ)
    (h : st.has_speech = true) :
    (vad_step minSp silTh st isSp n).has_speech = true := by
  cases isSp with
  | true =>
    simp only [vad_step]
    split <;> simp [h]
  | false => simp [vad_step, h]

/-- While `has_speech_` holds, a silence batch accumulates the silence counter,
keeps the speech fields, and latches `ready_to_process_` at the threshold. -/
theorem vad_step_silence_confirmed (minSp silTh : ℕ) (st : VadState) (n : ℕ)
    (h : st.has_speech = true) :
    vad_step minSp silTh st false n =
      { ready_to_process :=
          if silTh ≤ st.silence_sample_count + n then true else st.ready_to_process
        has_speech := st.has_speech
        speech_sample_count := st.speech_sample_count
        silence_sample_count := st.silence_sample_count + n } := by
  simp [vad_step, h]

/-- Over a run of silence batches started in a confirmed-speech state whose
silence counter is still below the threshold, `ready_to_process_` holds exactly
when the accumulated silence samples reach the threshold. -/
theorem silence_run_ready (minSp silTh : ℕ) :
    ∀ (ns : List ℕ) (st : VadState), st.has_speech = true →
      st.ready_to_process = false → st.silence_sample_count < silTh →
      ((vad_run minSp silTh st (ns.map fun n => (false, n))).ready_to_process = true ↔
        silTh ≤ st.silence_sample_count + ns.sum) := by
  intro ns
  induction ns with
  | nil =>
    intro st hs hr h0
    rw [List.map_nil, vad_run_nil, hr]
    simp
    omega
  | cons n rest ih =>
    intro st hs hr h0
    rw [List.map_cons, vad_run_cons]
    rw [show ((false, n) : Bool × ℕ).1 = false from rfl,
        show ((false, n) : Bool × ℕ).2 = n from rfl,
        vad_step_silence_confirmed minSp silTh st n hs]
    by_cases hth : silTh ≤ st.silence_sample_count + n
    · rw [if_pos hth]
      have hrun := vad_run_ready_mono minSp silTh (rest.map fun n => (false, n))
        { ready_to_process := true, has_speech := st.has_speech
          speech_sample_count := st.speech_sample_count
          silence_sample_count := st.silence_sample_count + n } rfl
      rw [hrun]
      refine iff_of_true rfl ?_
      rw [List.sum_cons]
      omega
    · rw [if_neg hth]
      have h2 := ih { ready_to_process := st.ready_to_process, has_speech := st.has_speech
                      speech_sample_count := st.speech_sample_count
                      silence_sample_count := st.silence_sample_count + n }
        hs hr (by show st.silence_sample_count + n < silTh; omega)
      rw [h2]
      show silTh ≤ st.silence_sample_count + n + rest.sum ↔
        silTh ≤ st.silence_sample_count + (n :: rest).sum
      rw [List.sum_cons]
      omega

/-- The claim hypothesis of C3: starting with `c` samples already accumulated
in the current speech run, no contiguous run of speech batches in the sequence
ever accumulates `minSp` samples. -/
def no_confirm (minSp : ℕ) : ℕ → List (Bool × ℕ) → Bool
  | _, [] => true
  | c, (true, n) :: rest => decide (c + n < minSp) && no_confirm minSp (c + n) rest
  | _, (false, _) :: rest => no_confirm minSp 0 rest

theorem no_confirm_take (minSp : ℕ) :
    ∀ (bs : List (Bool × ℕ)) (c k : ℕ), no_confirm minSp c bs = true →
      no_confirm minSp c (bs.take k) = true := by
  intro bs
  induction bs with
  | nil => intro c k _; simp [no_confirm]
  | cons b rest ih =>
    intro c k h
    cases k with
    | zero => simp [no_confirm]
    | succ k =>
      obtain ⟨isSp, n⟩ := b
      cases isSp with
      | true =>
        rw [List.take_succ_cons]
        rw [no_confirm] at h ⊢
        rw [Bool.and_eq_true] at h ⊢
        exact ⟨h.1, ih _ _ h.2⟩
      | false =>
        rw [List.take_succ_cons]
        rw [no_confirm] at h ⊢
        exact ih _ _ h

/-- Under the `no_confirm` hypothesis, running the batches from a state with
no confirmed speech leaves both `has_speech_` and `ready_to_process_` false. -/
theorem no_confirm_run (minSp silTh : ℕ) :
    ∀ (bs : List (Bool × ℕ)) (st : VadState), st.has_speech = false →
      st.ready_to_process = false →
      no_confirm minSp st.speech_sample_count bs = true →
      (vad_run minSp silTh st bs).has_speech = false ∧
        (vad_run minSp silTh st bs).ready_to_process = false := by
  intro bs
  induction bs with
  | nil => intro st hs hr _; rw [vad_run_nil]; exact ⟨hs, hr⟩
  | cons b rest ih =>
    intro st hs hr hnc
    obtain ⟨isSp, n⟩ := b
    rw [vad_run_cons]
    cases isSp with
    | true =>
      rw [no_confirm, Bool.and_eq_true, decide_eq_true_eq] at hnc
      have hstep : vad_step minSp silTh st true n =
          { ready_to_process := st.ready_to_process, has_speech := st.has_speech
            speech_sample_count := st.speech_sample_count + n
            silence_sample_count := 0 } := by
        simp [vad_step]
        intro hle
        omega
      rw [show ((true, n) : Bool × ℕ).1 = true from rfl,
          show ((true, n) : Bool × ℕ).2 = n from rfl, hstep]
      exact ih _ hs hr hnc.2
    | false =>
      rw [no_confirm] at hnc
      have hstep : vad_step minSp silTh st false n =
          { ready_to_process := st.ready_to_process, has_speech := st.has_speech
            speech_sample_count := 0, silence_sample_count := 0 } := by
        simp [vad_step, hs]
      rw [show ((false, n) : Bool × ℕ).1 = false from rfl,
          show ((false, n) : Bool × ℕ).2 = n from rfl, hstep]
      exact ih _ hs hr hnc

/-- Operations on the shared audio buffer: the producer-side insert of
`handle_audio_data` (lines 202–206) and the consumer-side swap of
`AudioCapture::get_audio_buffer` (lines 140–145). -/
inductive BufOp where
  | append (xs : List ℝ)
  | take_all

/-- Runs a sequence of buffer operations on a buffer, returning the final
buffer contents and the list of results of the `take_all` calls in order.
`append xs` inserts at the end under the lock; `take_all` swaps the contents
out with an empty vector and returns the previous contents. -/
def buf_run : List BufOp → List ℝ → List ℝ × List (List ℝ)
  | [], buf => (buf, [])
  | BufOp.append xs :: ops, buf => buf_run ops (buf ++ xs)
  | BufOp.take_all :: ops, buf => ((buf_run ops []).1, buf :: (buf_run ops []).2)

/-- The batches appended by a sequence of buffer operations, in call order. -/
def buf_appends : List BufOp → List (List ℝ)
  | [] => []
  | BufOp.append xs :: ops => xs :: buf_appends ops
  | BufOp.take_all :: ops => buf_appends ops

theorem buf_run_conserves :
    ∀ (ops : List BufOp) (buf : List ℝ),
      (buf_run ops buf).2.flatten ++ (buf_run ops buf).1 = buf ++ (buf_appends ops).flatten := by
  intro ops
  induction ops with
  | nil => intro buf; simp [buf_run, buf_appends]
  | cons op rest ih =>
    intro buf
    cases op with
    | append xs =>
      rw [show buf_run (BufOp.append xs :: rest) buf = buf_run rest (buf ++ xs) from rfl,
          show buf_appends (BufOp.append xs :: rest) = xs :: buf_appends rest from rfl,
          List.flatten_cons, ih (buf ++ xs)]
      simp [List.append_assoc]
    | take_all =>
      rw [show buf_run (BufOp.take_all :: rest) buf =
            ((buf_run rest []).1, buf :: (buf_run rest []).2) from rfl,
          show buf_appends (BufOp.take_all :: rest) = buf_appends rest from rfl]
      rw [List.flatten_cons, List.append_assoc, ih []]
      simp

/-- `AudioCapture::stop`-relevant session state: the `capturing_` flag and
whether a device stream handle is held (`stream_ != nullptr`). -/
structure SessionCtl where
  capturing : Bool
  hasStream : Bool

/-- `AudioCapture::stop` (lines 119–134). `stopErr` is the device layer's
report from `Pa_StopStream`: `true` when it returns an error. On an error the
code logs and returns early, before the line `capturing_ = false`. -/
def stop (s : SessionCtl) (stopErr : Bool) : SessionCtl :=
  if s.capturing = false then s
  else if s.hasStream && stopErr then s
  else { s with capturing := false }

/-- `AudioCapture::calculate_rms` (lines 160–171): `sqrt(sum(x_i^2)/N)` over
the first `sample_count` samples of the view, `0` for a null view or a zero
sample count. The float accumulation loop is modelled over the reals. -/
noncomputable def calculate_rms (data : Option (List ℝ)) (sample_count : ℕ) : ℝ :=
  match data with
  | none => 0
  | some l =>
    if sample_count = 0 then 0
    else Real.sqrt ((l.take sample_count).foldl (fun acc x => acc + x * x) 0 / sample_count)

/-- `AudioCapture::is_speech` (lines 173–176): strict comparison of the RMS
against `config_.vad_threshold`. -/
noncomputable def is_speech (cfg : AudioConfig) (data : Option (List ℝ)) (n : ℕ) : Bool :=
  @decide (calculate_rms data n > cfg.vad_threshold) (Classical.propDecidable _)

theorem foldl_sq_eq_sum (l : List ℝ) :
    l.foldl (fun acc x => acc + x * x) 0 = (l.map fun x => x * x).sum := by
  have h : ∀ a : ℝ, l.foldl (fun acc x => acc + x * x) a = a + (l.map fun x => x * x).sum := by
    induction l with
    | nil => intro a; simp
    | cons x xs ih => intro a; simp [List.foldl_cons, ih, add_assoc]
  simpa using h 0

/-- The mutable session state touched by the producer callback: the shared
audio buffer, the four VAD fields, and the `capturing_` flag. -/
structure CaptureState where
  audio_buffer : List ℝ
  vad : VadState
  capturing : Bool

/-- `AudioCapture::handle_audio_data` (lines 194–248). The sample view is a
list (`none` models a null pointer). Returns the new session state and, when a
user callback is installed (`has_cb`), the copied batch the callback receives
(`none` when no callback runs). A null view or zero `frame_count` returns
immediately. -/
noncomputable def handle_audio_data (cfg : AudioConfig) (has_cb : Bool)
    (st : CaptureState) (data : Option (List ℝ)) (frame_count : ℕ) :
    CaptureState × Option (List ℝ) :=
  match data with
  | none => (st, none)
  | some d =>
    if frame_count = 0 then (st, none)
    else
      let total := frame_count * cfg.channels
      let samples := d.take total
      let st1 : CaptureState :=
        { audio_buffer := st.audio_buffer ++ samples
          vad := vad_step (min_speech_samples cfg) (silence_samples_threshold cfg) st.vad
                   (is_speech cfg (some d) total) total
          capturing := st.capturing }
      (st1, if has_cb then some samples else none)

/-- `AudioCapture::pa_callback` (lines 178–192): forwards to
`handle_audio_data` only when the input pointer is non-null. -/
noncomputable def pa_callback (cfg : AudioConfig) (has_cb : Bool)
    (st : CaptureState) (input : Option (List ℝ)) (frame_count : ℕ) :
    CaptureState × Option (List ℝ) :=
  match input with
  | none => (st, none)
  | some d => handle_audio_data cfg has_cb st (some d) frame_count

/-- An operation on the VAD state: a classified frame batch processed by the
producer callback, or the consumer's `reset_vad_state`. -/
inductive VadOp where
  | frame (isSp : Bool) (n : ℕ)
  | reset

/-- Applies one operation to the VAD state. -/
def vad_apply (minSp silTh : ℕ) (st : VadState) : VadOp → VadState
  | VadOp.frame b n => vad_step minSp silTh st b n
  | VadOp.reset => reset_vad_state st

/-- The VAD state reached from the initial state by a sequence of frame-batch
updates and resets. -/
def vad_ops_run (minSp silTh : ℕ) (ops : List VadOp) : VadState :=
  ops.foldl (vad_apply minSp silTh) init_vad_state

/-- One operation preserves the invariant `ready_to_process → has_speech`. -/
theorem vad_apply_inv (minSp silTh : ℕ) (st : VadState) (op : VadOp)
    (h : st.ready_to_process = true → st.has_speech = true) :
    (vad_apply minSp silTh st op).ready_to_process = true →
      (vad_apply minSp silTh st op).has_speech = true := by
  cases op with
  | reset => intro hc; cases hc.symm.trans (rfl : (reset_vad_state st).ready_to_process = false)
  | frame b n =>
    cases b with
    | true =>
      intro hr
      have hr0 : st.ready_to_process = true := by
        simpa [vad_apply, vad_step] using hr
      exact vad_step_speech_mono minSp silTh st true n (h hr0)
    | false =>
      cases hsp : st.has_speech with
      | true =>
        intro _
        exact vad_step_speech_mono minSp silTh st false n hsp
      | false =>
        intro hr
        have hr0 : st.ready_to_process = true := by
          simpa [vad_apply, vad_step, hsp] using hr
        exact absurd (h hr0) (by simp [hsp])

theorem vad_ops_inv (minSp silTh : ℕ) :
    ∀ (ops : List VadOp) (st : VadState),
      (st.ready_to_process = true → st.has_speech = true) →
      ((ops.foldl (vad_apply minSp silTh) st).ready_to_process = true →
        (ops.foldl (vad_apply minSp silTh) st).has_speech = true) := by
  intro ops
  induction ops with
  | nil => intro st h; simpa using h
  | cons op rest ih =>
    intro st h
    rw [List.foldl_cons]
    exact ih _ (vad_apply_inv minSp silTh st op h)

/-- C1 counterexample: the claim "stop() sets the capturing flag to false even
when Pa_StopStream reports an error" is false on the code: with a capturing
session holding a stream, a device-reported stop error makes `stop` log and
return early, so `capturing_` stays true. -/
theorem stop_error_counterexample :
    (SessionCtl.mk true true).capturing = true ∧
    ¬ (stop (SessionCtl.mk true true) true).capturing = false := by
  exact ⟨rfl, by decide⟩

/-- C1 (amended): for every capturing session, `stop` clears the capturing
flag when no stream is held or the device halt request reports no error; but
when `Pa_StopStream` reports an error, `stop` logs and returns early, leaving
the session state (capturing flag included) unchanged. -/
theorem stop_clears_capturing_unless_device_error (s : SessionCtl) (err : Bool)
    (h : s.capturing = true) :
    ((s.hasStream = false ∨ err = false) → (stop s err).capturing = false) ∧
    (s.hasStream = true → err = true → stop s err = s) := by
  constructor
  · intro hcase
    rcases hcase with hns | hne
    · simp [stop, h, hns]
    · simp [stop, h, hne]
  · intro hstr herr
    simp [stop, h, hstr, herr]

theorem stop_clears_capturing_unless_device_error_witness :
    (stop (SessionCtl.mk true false) true).capturing = false ∧
    stop (SessionCtl.mk true true) true = SessionCtl.mk true true :=
  ⟨(stop_clears_capturing_unless_device_error (SessionCtl.mk true false) true rfl).1
      (Or.inl rfl),
   (stop_clears_capturing_unless_device_error (SessionCtl.mk true true) true rfl).2 rfl rfl⟩

/-- C2: from every VAD state with speech confirmed (`has_speech = true`,
`ready_to_process` not yet latched, silence counter still below the
threshold), over any run of silence-classified frame batches
`ready_to_process` becomes true exactly at the batch whose samples make the
accumulated silence sample count reach `silence_samples_threshold` (derived
as `silence_duration_ms / 1000 * sample_rate`), and it is false at every
earlier point of the silence run. -/
theorem silence_threshold_exact (cfg : AudioConfig) (st : VadState)
    (batches : List ℕ) (k : ℕ) (hs : st.has_speech = true)
    (hr : st.ready_to_process = false)
    (h0 : st.silence_sample_count < silence_samples_threshold cfg) :
    ((vad_run (min_speech_samples cfg) (silence_samples_threshold cfg) st
        ((batches.take k).map fun n => (false, n))).ready_to_process = true ↔
      silence_samples_threshold cfg ≤
        st.silence_sample_count + (batches.take k).sum) :=
  silence_run_ready _ _ _ _ hs hr h0

theorem silence_threshold_exact_witness :
    (vad_run (min_speech_samples ⟨1, 1, 1, 0, 4000, 4000⟩)
        (silence_samples_threshold ⟨1, 1, 1, 0, 4000, 4000⟩)
        ⟨false, true, 4, 0⟩
        ((([2, 2] : List ℕ).take 2).map fun n => (false, n))).ready_to_process = true := by
  have hth : silence_samples_threshold (⟨1, 1, 1, 0, 4000, 4000⟩ : AudioConfig) = 4 := by
    have h1 : (4000 : ℚ) / 1000 * 1 = 4 := by norm_num
    rw [show silence_samples_threshold (⟨1, 1, 1, 0, 4000, 4000⟩ : AudioConfig) =
      ⌊(4000 : ℚ) / 1000 * 1⌋₊ from rfl, h1]
    simp
  exact (silence_threshold_exact ⟨1, 1, 1, 0, 4000, 4000⟩ ⟨false, true, 4, 0⟩ [2, 2] 2
    rfl rfl (by rw [hth]; decide)).mpr (by rw [hth]; decide)

/-- C3: for every batch sequence in which no contiguous run of
speech-classified batches accumulates `minSp` samples (hypothesis
`no_confirm`), starting from a state without confirmed speech, `has_speech`
and `ready_to_process` stay false at every point of the sequence; moreover a
silence batch processed while `has_speech` is false resets both sample
counters to zero. -/
theorem no_speech_no_confirm (minSp silTh : ℕ) (st : VadState)
    (batches : List (Bool × ℕ)) (k : ℕ) (hs : st.has_speech = false)
    (hr : st.ready_to_process = false)
    (hnc : no_confirm minSp st.speech_sample_count batches = true) :
    ((vad_run minSp silTh st (batches.take k)).has_speech = false ∧
      (vad_run minSp silTh st (batches.take k)).ready_to_process = false) ∧
    ∀ m : ℕ, (vad_step minSp silTh st false m).speech_sample_count = 0 ∧
      (vad_step minSp silTh st false m).silence_sample_count = 0 := by
  refine ⟨no_confirm_run minSp silTh _ st hs hr
    (no_confirm_take minSp batches _ k hnc), ?_⟩
  intro m
  constructor <;> simp [vad_step, hs]

theorem no_speech_no_confirm_witness :
    (vad_run 2 1 init_vad_state
      ([(true, 1), (false, 5), (true, 1)].take 3)).has_speech = false ∧
    (vad_run 2 1 init_vad_state
      ([(true, 1), (false, 5), (true, 1)].take 3)).ready_to_process = false :=
  (no_speech_no_confirm 2 1 init_vad_state [(true, 1), (false, 5), (true, 1)] 3
    rfl rfl (by decide)).1

/-- C4: for every sequence of producer appends interleaved with consumer
takes starting from the empty buffer, the concatenation of all `take_all`
results in call order, followed by whatever is still buffered, equals the
concatenation of all appended batches in call order — no sample lost,
duplicated or reordered; and each `take_all` returns exactly the accumulated
contents and leaves the buffer empty. -/
theorem buffer_exchange_faithful (ops : List BufOp) :
    (buf_run ops []).2.flatten ++ (buf_run ops []).1 = (buf_appends ops).flatten ∧
    ∀ buf : List ℝ, buf_run [BufOp.take_all] buf = ([], [buf]) := by
  refine ⟨by simpa using buf_run_conserves ops [], ?_⟩
  intro buf
  rfl

/-- C5: once `ready_to_process` is true, processing any further frame batches
(speech- or silence-classified) never sets it back to false; only the
explicit `reset_vad_state` clears it. -/
theorem ready_latched (minSp silTh : ℕ) (st : VadState)
    (batches : List (Bool × ℕ)) (h : st.ready_to_process = true) :
    (vad_run minSp silTh st batches).ready_to_process = true ∧
    ∀ s : VadState, (reset_vad_state s).ready_to_process = false :=
  ⟨vad_run_ready_mono minSp silTh batches st h, fun _ => rfl⟩

theorem ready_latched_witness :
    (vad_run 3 3 ⟨true, true, 5, 3⟩ [(true, 2), (false, 1)]).ready_to_process = true :=
  (ready_latched 3 3 ⟨true, true, 5, 3⟩ [(true, 2), (false, 1)] rfl).1

/-- C6: after `reset_vad_state`, the four VAD fields equal their initial
values, whatever the prior state was. -/
theorem reset_restores_initial (st : VadState) :
    (reset_vad_state st).ready_to_process = false ∧
    (reset_vad_state st).has_speech = false ∧
    (reset_vad_state st).speech_sample_count = 0 ∧
    (reset_vad_state st).silence_sample_count = 0 :=
  ⟨rfl, rfl, rfl, rfl⟩

/-- C7: on a view of `N` float samples `calculate_rms` returns
`sqrt(Σ x_i² / N)`, and `0` for a null view or `N = 0`; `is_speech` holds iff
that RMS is strictly greater than `vad_threshold`, so a frame whose RMS
exactly equals the threshold is classified silence. -/
theorem rms_speech_spec (cfg : AudioConfig) (l : List ℝ) (n : ℕ)
    (hn : 0 < n) (hl : l.length = n) :
    calculate_rms none n = 0 ∧
    calculate_rms (some l) 0 = 0 ∧
    calculate_rms (some l) n = Real.sqrt ((l.map fun x => x * x).sum / n) ∧
    (is_speech cfg (some l) n = true ↔ calculate_rms (some l) n > cfg.vad_threshold) ∧
    (calculate_rms (some l) n = cfg.vad_threshold →
      is_speech cfg (some l) n = false) := by
  refine ⟨rfl, by simp [calculate_rms], ?_, ?_, ?_⟩
  · show (if n = 0 then (0 : ℝ)
      else Real.sqrt ((l.take n).foldl (fun acc x => acc + x * x) 0 / n)) =
      Real.sqrt ((l.map fun x => x * x).sum / n)
    rw [if_neg (by omega : ¬ n = 0), ← hl, List.take_length, foldl_sq_eq_sum]
  · unfold is_speech
    constructor
    · intro h
      exact of_decide_eq_true h
    · intro h
      exact decide_eq_true h
  · intro heq
    unfold is_speech
    refine decide_eq_false ?_
    rw [heq]
    exact lt_irrefl _

theorem rms_speech_spec_witness :
    calculate_rms none 1 = 0 ∧
    calculate_rms (some [(1 : ℝ)]) 0 = 0 ∧
    calculate_rms (some [(1 : ℝ)]) 1 =
      Real.sqrt ((([(1 : ℝ)]).map fun x => x * x).sum / ((1 : ℕ) : ℝ)) ∧
    (is_speech ⟨1, 1, 1, 2, 0, 0⟩ (some [(1 : ℝ)]) 1 = true ↔
      calculate_rms (some [(1 : ℝ)]) 1 >
        (⟨1, 1, 1, 2, 0, 0⟩ : AudioConfig).vad_threshold) ∧
    (calculate_rms (some [(1 : ℝ)]) 1 =
        (⟨1, 1, 1, 2, 0, 0⟩ : AudioConfig).vad_threshold →
      is_speech ⟨1, 1, 1, 2, 0, 0⟩ (some [(1 : ℝ)]) 1 = false) :=
  rms_speech_spec ⟨1, 1, 1, 2, 0, 0⟩ [1] 1 (by norm_num) rfl

/-- C8: invoking the producer callback with a null sample pointer, or the
frame handler with a null view or a zero frame count, is a no-op: the shared
buffer, the VAD fields and the capturing flag are unchanged and no user
callback is invoked. -/
theorem null_or_empty_batch_noop (cfg : AudioConfig) (cb : Bool)
    (st : CaptureState) (d : List ℝ) (fc : ℕ) :
    pa_callback cfg cb st none fc = (st, none) ∧
    handle_audio_data cfg cb st none fc = (st, none) ∧
    handle_audio_data cfg cb st (some d) 0 = (st, none) :=
  ⟨rfl, rfl, rfl⟩

/-- C9 counterexample: with an empty buffer and no intervening append, the
first of two consecutive `take_all` calls returns the empty result, refuting
the claim that the first call's result is non-empty. -/
theorem take_all_twice_counterexample :
    (buf_run [BufOp.take_all, BufOp.take_all] []).2 = [[], []] ∧
    ¬ (buf_run [BufOp.take_all, BufOp.take_all] []).2.headI ≠ [] :=
  ⟨rfl, fun h => h rfl⟩

/-- C9 (amended): if `take_all` is called twice in a row with no intervening
append and the buffer is non-empty at the first call, the first call returns
the non-empty accumulated contents and the second call returns the empty
result. -/
theorem take_all_twice (buf : List ℝ) (h : buf ≠ []) :
    (buf_run [BufOp.take_all, BufOp.take_all] buf).2 = [buf, []] ∧
    (buf_run [BufOp.take_all, BufOp.take_all] buf).2.headI ≠ [] :=
  ⟨rfl, h⟩

theorem take_all_twice_witness :
    (buf_run [BufOp.take_all, BufOp.take_all] [(1 : ℝ)]).2 = [[1], []] ∧
    (buf_run [BufOp.take_all, BufOp.take_all] [(1 : ℝ)]).2.headI ≠ [] :=
  take_all_twice [1] (by simp)

/-- C10: in every VAD state reachable from the initial state by any sequence
of frame-batch updates and resets, `ready_to_process = true` implies
`has_speech = true`; and `has_speech`, once true, is never cleared by
processing a frame batch — only `reset_vad_state` clears it. -/
theorem reachable_ready_implies_speech (minSp silTh : ℕ) (ops : List VadOp) :
    ((vad_ops_run minSp silTh ops).ready_to_process = true →
      (vad_ops_run minSp silTh ops).has_speech = true) ∧
    ∀ (st : VadState) (b : Bool) (n : ℕ), st.has_speech = true →
      (vad_step minSp silTh st b n).has_speech = true :=
  ⟨vad_ops_inv minSp silTh ops init_vad_state (fun h => nomatch h),
   fun st b n h => vad_step_speech_mono minSp silTh st b n h⟩

theorem reachable_ready_implies_speech_witness :
    (vad_ops_run 1 1 [VadOp.frame true 1, VadOp.frame false 1]).has_speech = true ∧
    (vad_step 1 1 ⟨false, true, 0, 0⟩ false 5).has_speech = true :=
  ⟨(reachable_ready_implies_speech 1 1 [VadOp.frame true 1, VadOp.frame false 1]).1
      (by decide),
   (reachable_ready_implies_speech 1 1 []).2 ⟨false, true, 0, 0⟩ false 5 rfl⟩

end Frameforge
